import Mathlib

/-!
Shallow embedding of the Zammad desktop `CommonSelect` overlay component
(`src/app/frontend/apps/desktop/components/CommonSelect/CommonSelect.vue`).

The component manages a floating options panel: it tracks an open/closed
flag (`showDropdown`), a bound selection value (`localValue`, synchronized
with the parent through `update:modelValue` events), computes placement
from the trigger's bounding box and the viewport height, and participates
in a process-wide registry of overlay instances that enforces mutual
exclusion between open overlays.

Values of options are JavaScript primitives (`string | number | boolean`)
compared with strict equality; we abstract them as a type `α` with
decidable equality.  The bound model value can be `null`/`undefined`, a
single primitive, or an array of primitives; `ModelValue.null` models both
`null` and `undefined` (the component only tests `== null`, which
conflates them, and only writes `undefined`).

Event emissions are recorded in an append-only trace.  Each trace entry
pairs the emitted event with the bound selection value at the moment of
emission, so that ordering claims ("the observer of the `select` event
sees the pre-mutation selection") can be stated about the trace.
-/

namespace CommonSelect

/-- The bound model value: `null`/`undefined`, a single primitive, or an
array of primitives (`modelValue?: string | number | boolean | (...)[] | null`). -/
inductive ModelValue (α : Type) where
  | null : ModelValue α
  | single : α → ModelValue α
  | list : List α → ModelValue α
  deriving DecidableEq, Repr

/-- A select option (`SelectOption`): a value, a display label and a
`disabled?` flag (absent means `false`, since `if (option.disabled)` treats
`undefined` as falsy). Fields irrelevant to behaviour (icon, status, match
span) are omitted. -/
structure SelectOption (α : Type) where
  value : α
  label : String
  disabled : Bool
  deriving DecidableEq, Repr

/-- The component props that influence the selection logic. -/
structure Props (α : Type) where
  options : List (SelectOption α)
  passive : Bool
  multiple : Bool
  noClose : Bool
  noRefocus : Bool
  deriving DecidableEq, Repr

/-- Events emitted by the component (`update:modelValue`, `select`, `close`). -/
inductive Emit (α : Type) where
  | select : SelectOption α → Emit α
  | close : Emit α
  | updateModelValue : ModelValue α → Emit α
  deriving DecidableEq, Repr

/-- Mutable component state: the bound value, the open flag, and the trace
of emitted events.  Each trace entry records the bound value at the moment
the event was emitted. -/
structure State (α : Type) where
  localValue : ModelValue α
  showDropdown : Bool
  emitted : List (Emit α × ModelValue α)
  deriving DecidableEq, Repr

variable {α : Type} [DecidableEq α]

/-- Append an event to the trace, recording the current bound value. -/
def emitEvent (s : State α) (e : Emit α) : State α :=
  { s with emitted := s.emitted ++ [(e, s.localValue)] }

/-- `localValue.value = v` through `useVModel`: an `update:modelValue`
event is emitted and the bound value becomes `v`.  The trace entry records
the pre-assignment value (the parent prop is updated only in response to
the event). -/
def setLocalValue (s : State α) (v : ModelValue α) : State α :=
  { s with
    localValue := v
    emitted := s.emitted ++ [(Emit.updateModelValue v, s.localValue)] }

/-- Initial normalization of the bound value (lines 56–58):
`if (localValue.value == null && props.multiple) localValue.value = []`.
`== null` matches both `null` and `undefined`. -/
def initLocalValue (multiple : Bool) (mv : ModelValue α) : ModelValue α :=
  if mv = ModelValue.null ∧ multiple then ModelValue.list [] else mv

/-- `closeDropdown` (lines 110–121): deactivates the tab trap (not
modelled: DOM), sets `showDropdown` to `false`, emits `close`, and
schedules refocus / test flags on the next ticks (not modelled: DOM). -/
def closeDropdown (s : State α) : State α :=
  emitEvent { s with showDropdown := false } Emit.close

/-- `isCurrentValue` (lines 198–204): in multiple mode with an array
value, array membership; otherwise strict equality `localValue.value ===
value` (an array or `null`/`undefined` is never strictly equal to a
primitive). -/
def isCurrentValue (p : Props α) (s : State α) (v : α) : Bool :=
  match p.multiple, s.localValue with
  | true, ModelValue.list vs => v ∈ vs
  | _, ModelValue.single w => w = v
  | _, _ => false

/-- `select` (lines 206–237), translated clause by clause:
disabled guard, `select` emission, passive early return (closing in
single mode), the multiple-mode toggle branch (`filter` assignment emits
`update:modelValue`; in-place `push` does not), and the single-mode
replace/clear branch followed by the auto-close. -/
def select (p : Props α) (s : State α) (o : SelectOption α) : State α :=
  if o.disabled then s
  else
    let s₁ := emitEvent s (Emit.select o)
    if p.passive then
      if !p.multiple then closeDropdown s₁ else s₁
    else
      match p.multiple, s₁.localValue with
      | true, ModelValue.list vs =>
        if o.value ∈ vs then
          setLocalValue s₁ (ModelValue.list (vs.filter (fun v => v ≠ o.value)))
        else
          { s₁ with localValue := ModelValue.list (vs ++ [o.value]) }
      | _, _ =>
        let s₂ :=
          if s₁.localValue = ModelValue.single o.value then
            setLocalValue s₁ ModelValue.null
          else
            setLocalValue s₁ (ModelValue.single o.value)
        if !p.multiple && !p.noClose then closeDropdown s₂ else s₂

/-- `selectAll` (lines 246–250): filter the options by "not disabled and
not currently selected" (evaluated eagerly on the current state), then
apply `select` to each in listed order. -/
def selectAll (p : Props α) (s : State α) : State α :=
  (p.options.filter (fun o => !o.disabled && !isCurrentValue p s o.value)).foldl
    (fun acc o => select p acc o) s

/-- The `select` events contained in a trace, in order. -/
def selectEmits (l : List (Emit α × ModelValue α)) : List (SelectOption α) :=
  l.filterMap (fun e =>
    match e.1 with
    | Emit.select o => some o
    | _ => none)

/-- A user-driven selection operation: clicking an option row (`select`)
or the "select all options" row (`selectAll`). -/
inductive MultiOp (α : Type) where
  | sel : SelectOption α → MultiOp α
  | selAll : MultiOp α

/-- Run one selection operation on the component state. -/
def applyOp (p : Props α) (s : State α) : MultiOp α → State α
  | MultiOp.sel o => select p s o
  | MultiOp.selAll => selectAll p s

/-- Run a sequence of selection operations in order. -/
def applyOps (p : Props α) (s : State α) (ops : List (MultiOp α)) : State α :=
  ops.foldl (applyOp p) s

end CommonSelect

namespace CommonSelect

/-! ## Placement geometry -/

/-- Trigger bounding box as used by the component (`UseElementBoundingReturn`
fields that the component reads).  Coordinates are idealized as rationals. -/
structure Bounds where
  y : ℚ
  top : ℚ
  left : ℚ
  width : ℚ
  height : ℚ
  deriving DecidableEq, Repr

/-- `hasDirectionUp` (lines 71–74): `false` when the bounds or the window
height were never captured; otherwise `inputElementBounds.y.value >
windowHeight.value / 2`. -/
def hasDirectionUp (inputElementBounds : Option Bounds) (windowHeight : Option ℚ) : Bool :=
  match inputElementBounds, windowHeight with
  | some b, some h => decide (b.y > h / 2)
  | _, _ => false

end CommonSelect

namespace CommonSelect

/-! ## Overlay instance registry

`useCommonSelect` keeps a global set of mounted overlay instances; each
instance exposes `isOpen` and `closeDropdown`.  `openDropdown`
(lines 123–144) first runs `closeDropdown` on every registered instance
whose `isOpen` flag is set, then sets its own `showDropdown` to `true`.
We model the registry as the list of the `isOpen` flags of the mounted
instances, indexed by registration order. -/

/-- Registry state: the `isOpen` flag of each mounted overlay instance. -/
abbrev RegState := List Bool

/-- The `forEach` loop of `openDropdown`: every instance whose flag is set
is closed (its flag becomes `false`); the others are untouched. -/
def closeAllOpen (s : RegState) : RegState :=
  s.map (fun b => if b then false else b)

/-- `openDropdown` on instance `i`: close every currently-open registered
instance (including itself, if it was open), then mark instance `i` open. -/
def openReg (s : RegState) (i : Nat) : RegState :=
  (closeAllOpen s).set i true

/-- `closeDropdown` on instance `i`: its flag becomes `false`. -/
def closeReg (s : RegState) (i : Nat) : RegState :=
  s.set i false

/-- Component setup: `instances.value.add(exposedInstance)` with the
dropdown initially closed. -/
def mountReg (s : RegState) : RegState :=
  s ++ [false]

/-- `onUnmounted`: `instances.value.delete(exposedInstance)`. -/
def unmountReg (s : RegState) (i : Nat) : RegState :=
  s.eraseIdx i

/-- Number of overlay instances currently open. -/
def openCount (s : RegState) : Nat :=
  s.count true

/-- Registry states reachable from an empty registry through mounting,
unmounting, opening and closing of overlay instances. -/
inductive ReachableReg : RegState → Prop where
  | init : ReachableReg []
  | mount {s : RegState} : ReachableReg s → ReachableReg (mountReg s)
  | unmount {s : RegState} (i : Nat) : ReachableReg s → ReachableReg (unmountReg s i)
  | openStep {s : RegState} {i : Nat} : ReachableReg s → i < s.length →
      ReachableReg (openReg s i)
  | closeStep {s : RegState} (i : Nat) : ReachableReg s → ReachableReg (closeReg s i)

end CommonSelect

namespace CommonSelect

variable {α : Type} [DecidableEq α]

/-! ## Registry lemmas and the mutual-exclusion invariant (C1) -/

theorem closeAllOpen_eq_replicate (s : RegState) :
    closeAllOpen s = List.replicate s.length false := by
  induction s with
  | nil => rfl
  | cons b t ih =>
    have hb : (if b then false else b) = false := by cases b <;> rfl
    show (if b then false else b) :: closeAllOpen t =
      false :: List.replicate t.length false
    rw [hb, ih]

theorem count_true_set_true_replicate (n i : Nat) :
    ((List.replicate n false).set i true).count true ≤ 1 := by
  induction n generalizing i with
  | zero => simp
  | succ m ih =>
    cases i with
    | zero =>
      show (true :: List.replicate m false).count true ≤ 1
      simp [List.count_cons, List.count_replicate]
    | succ j =>
      show (false :: (List.replicate m false).set j true).count true ≤ 1
      simpa [List.count_cons] using ih j

theorem count_true_set_false_le (s : RegState) (i : Nat) :
    (s.set i false).count true ≤ s.count true := by
  induction s generalizing i with
  | nil => simp
  | cons b t ih =>
    cases i with
    | zero =>
      show (false :: t).count true ≤ (b :: t).count true
      cases b <;> simp [List.count_cons]
    | succ j =>
      show (b :: t.set j false).count true ≤ (b :: t).count true
      have := ih j
      cases b <;> simp [List.count_cons] <;> omega

theorem count_true_eraseIdx_le (s : RegState) (i : Nat) :
    (s.eraseIdx i).count true ≤ s.count true :=
  (List.eraseIdx_sublist s i).count_le true

/-- C1: `openDropdown` first closes every other currently-open registered
instance and only then marks the opened instance open — after `openReg s i`
the registry is all-`false` except for position `i` — and therefore in
every registry state reachable through mount/unmount/open/close, at most
one overlay instance is open at a time. -/
theorem openDropdown_mutual_exclusion :
    (∀ (s : RegState) (i : Nat),
        openReg s i = (List.replicate s.length false).set i true) ∧
    (∀ s : RegState, ReachableReg s → openCount s ≤ 1) := by
  constructor
  · intro s i
    simp [openReg, closeAllOpen_eq_replicate]
  · intro s h
    induction h with
    | init => simp [openCount]
    | mount h ih =>
      simpa [openCount, mountReg, List.count_append] using ih
    | unmount i h ih =>
      exact le_trans (count_true_eraseIdx_le _ i) ih
    | openStep h hi ih =>
      simpa [openCount, openReg, closeAllOpen_eq_replicate] using
        count_true_set_true_replicate _ _
    | closeStep i h ih =>
      exact le_trans (count_true_set_false_le _ i) ih

/-- Witness for C1 at a concrete reachable registry: two mounted
instances, the second opened. -/
theorem openDropdown_mutual_exclusion_witness :
    openCount [false, true] ≤ 1 := by
  have h0 : ReachableReg [false, false] :=
    ReachableReg.mount (ReachableReg.mount ReachableReg.init)
  have h1 : ReachableReg (openReg [false, false] 1) :=
    ReachableReg.openStep h0 (by decide)
  exact openDropdown_mutual_exclusion.2 [false, true] h1

/-! ## Placement direction (C5) -/

/-- C5 counterexample: with the trigger's vertical position exactly at
half the viewport height (`y = 50`, viewport `100`), the code computes
direction "down" (`hasDirectionUp = false`) even though `y ≥ 100 / 2`
holds, refuting the "at least half ⇒ up" reading. -/
theorem hasDirectionUp_at_half_is_down :
    hasDirectionUp (some ⟨50, 50, 0, 0, 10⟩) (some 100) = false ∧
    (50 : ℚ) ≥ 100 / 2 := by
  constructor
  · simp only [hasDirectionUp]
    norm_num
  · norm_num

/-- C5 amended: for every captured trigger bounding box and viewport
height, the placement direction is "up" exactly when the trigger's
vertical position strictly exceeds half the viewport height, and "down"
otherwise (including the boundary case of exactly half). -/
theorem hasDirectionUp_iff_strictly_above_half (b : Bounds) (h : ℚ) :
    hasDirectionUp (some b) (some h) = true ↔ b.y > h / 2 := by
  simp [hasDirectionUp]

/-! ## Disabled options (C6) -/

/-- C6: selecting a disabled option is a complete no-op in every mode: no
event is emitted, the bound value is unchanged, and the open/closed state
is unchanged (the state is returned untouched). -/
theorem select_disabled_noop (p : Props α) (s : State α) (o : SelectOption α)
    (hd : o.disabled = true) : select p s o = s := by
  simp [select, hd]

/-- Witness for C6: a disabled option in multiple mode leaves a concrete
state untouched. -/
theorem select_disabled_noop_witness :
    select (⟨[], false, true, false, false⟩ : Props ℕ)
      ⟨ModelValue.list [1], true, []⟩ ⟨2, "b", true⟩ =
      ⟨ModelValue.list [1], true, []⟩ :=
  select_disabled_noop (⟨[], false, true, false, false⟩ : Props ℕ)
    ⟨ModelValue.list [1], true, []⟩ ⟨2, "b", true⟩ rfl

/-! ## Idempotent closing (C8) -/

omit [DecidableEq α] in
/-- C8: `closeDropdown` is a total function (no error path) and is
idempotent on the component state: after one close the dropdown is
closed, and a second close leaves both the open flag and the bound value
exactly as after the first; the only effect of the redundant call is one
more `close` notification appended to the event trace. -/
theorem closeDropdown_idempotent (s : State α) :
    (closeDropdown s).showDropdown = false ∧
    (closeDropdown (closeDropdown s)).showDropdown = (closeDropdown s).showDropdown ∧
    (closeDropdown (closeDropdown s)).localValue = (closeDropdown s).localValue ∧
    (closeDropdown (closeDropdown s)).emitted =
      (closeDropdown s).emitted ++ [(Emit.close, s.localValue)] := by
  simp [closeDropdown, emitEvent]

/-! ## Single mode (C3) -/

/-- C3: in single (non-multiple), non-passive mode, selecting a
non-disabled option clears the selection to `null`/`undefined` when the
option's value equals the currently-selected value and replaces the
selection with the option's value otherwise; afterwards the overlay is
closed unless the `noClose` flag is set, in which case the open state is
untouched. -/
theorem select_single_mode (p : Props α) (s : State α) (o : SelectOption α)
    (hm : p.multiple = false) (hp : p.passive = false) (hd : o.disabled = false) :
    ((select p s o).localValue =
      if s.localValue = ModelValue.single o.value then ModelValue.null
      else ModelValue.single o.value) ∧
    ((select p s o).showDropdown = if p.noClose then s.showDropdown else false) := by
  cases hnc : p.noClose <;>
    by_cases heq : s.localValue = ModelValue.single o.value <;>
      simp [select, emitEvent, setLocalValue, closeDropdown, hm, hp, hd, hnc, heq]

/-- Witness for C3: selecting the already-current value `5` with
`noClose` unset clears the selection and closes the overlay. -/
theorem select_single_mode_witness :
    ((select (⟨[], false, false, false, false⟩ : Props ℕ)
        ⟨ModelValue.single 5, true, []⟩ ⟨5, "a", false⟩).localValue =
      if (ModelValue.single 5 : ModelValue ℕ) = ModelValue.single 5 then
        ModelValue.null
      else ModelValue.single 5) ∧
    ((select (⟨[], false, false, false, false⟩ : Props ℕ)
        ⟨ModelValue.single 5, true, []⟩ ⟨5, "a", false⟩).showDropdown =
      if false then true else false) :=
  select_single_mode (⟨[], false, false, false, false⟩ : Props ℕ)
    ⟨ModelValue.single 5, true, []⟩ ⟨5, "a", false⟩ rfl rfl rfl

/-! ## Passive mode (C7) -/

/-- C7: in passive mode, selecting a non-disabled option emits the
per-option `select` notification but never mutates the bound selection
value; when not in multiple mode the overlay is additionally closed (with
its `close` notification), and nothing else in the component state
changes — the result is fully characterized. -/
theorem select_passive_frame (p : Props α) (s : State α) (o : SelectOption α)
    (hp : p.passive = true) (hd : o.disabled = false) :
    select p s o =
      { localValue := s.localValue
        showDropdown := if p.multiple then s.showDropdown else false
        emitted := s.emitted ++ [(Emit.select o, s.localValue)] ++
          if p.multiple then [] else [(Emit.close, s.localValue)] } := by
  cases hmul : p.multiple <;>
    simp [select, emitEvent, closeDropdown, hp, hd, hmul]

/-- Witness for C7: passive single-select on a concrete state emits
`select` then `close` and leaves the bound value alone. -/
theorem select_passive_frame_witness :
    select (⟨[], true, false, false, false⟩ : Props ℕ)
      ⟨ModelValue.single 1, true, []⟩ ⟨2, "b", false⟩ =
      { localValue := ModelValue.single 1
        showDropdown := if false then true else false
        emitted := [] ++ [(Emit.select ⟨2, "b", false⟩, ModelValue.single 1)] ++
          if false then [] else [(Emit.close, ModelValue.single 1)] } :=
  select_passive_frame (⟨[], true, false, false, false⟩ : Props ℕ)
    ⟨ModelValue.single 1, true, []⟩ ⟨2, "b", false⟩ rfl rfl

/-! ## Emission ordering (C10) -/

/-- C10: for every non-disabled option, in every mode, `select` appends
the per-option `select` notification to the trace before any mutation of
the bound selection value: the first event added carries the pre-call
bound value, so an observer of the notification sees the pre-toggle
selection state. -/
theorem select_emits_select_first (p : Props α) (s : State α) (o : SelectOption α)
    (hd : o.disabled = false) :
    ∃ rest, (select p s o).emitted =
      s.emitted ++ (Emit.select o, s.localValue) :: rest := by
  refine ⟨((select p s o).emitted.drop s.emitted.length).tail, ?_⟩
  cases hp : p.passive <;> cases hm : p.multiple <;>
    cases hnc : p.noClose <;> cases hlv : s.localValue <;>
      by_cases heq : s.localValue = ModelValue.single o.value <;>
        simp [select, emitEvent, setLocalValue, closeDropdown, hp, hm, hd, hnc, hlv,
          heq, List.append_assoc, List.drop_left] <;>
        split_ifs <;>
        simp [List.drop_left]

/-- Witness for C10: in multiple mode, toggling value `1` off a concrete
selection records the `select` event with the pre-toggle selection. -/
theorem select_emits_select_first_witness :
    ∃ rest, (select (⟨[], false, true, false, false⟩ : Props ℕ)
        ⟨ModelValue.list [1], true, []⟩ ⟨1, "a", false⟩).emitted =
      [] ++ (Emit.select ⟨1, "a", false⟩, ModelValue.list [1]) :: rest :=
  select_emits_select_first (⟨[], false, true, false, false⟩ : Props ℕ)
    ⟨ModelValue.list [1], true, []⟩ ⟨1, "a", false⟩ rfl

/-! ## Multiple-mode toggling (C2) -/

/-- In multiple, non-passive mode with an array value, one `select`
toggles membership (removing every occurrence of the value, or appending
it at the end) and leaves the open flag untouched. -/
theorem select_multiple_list_localValue (p : Props α) (s : State α)
    (o : SelectOption α) (vs : List α) (hm : p.multiple = true)
    (hp : p.passive = false) (hd : o.disabled = false)
    (hv : s.localValue = ModelValue.list vs) :
    (select p s o).localValue =
      ModelValue.list
        (if o.value ∈ vs then vs.filter (fun v => v ≠ o.value)
         else vs ++ [o.value]) ∧
    (select p s o).showDropdown = s.showDropdown := by
  by_cases hmem : o.value ∈ vs <;>
    simp [select, emitEvent, setLocalValue, hm, hp, hd, hv, hmem]

/-- C2 counterexample: in multiple mode with selection `[1, 2]`, selecting
the option with value `1` twice yields the sequence `[2, 1]`, not the
original `[1, 2]` — the first toggle removes `1`, the second appends it at
the end, so the sequence is not restored. -/
theorem select_double_not_sequence_identity :
    (select (⟨[], false, true, false, false⟩ : Props ℕ)
        (select (⟨[], false, true, false, false⟩ : Props ℕ)
          ⟨ModelValue.list [1, 2], true, []⟩ ⟨1, "a", false⟩)
        ⟨1, "a", false⟩).localValue ≠ ModelValue.list [1, 2] := by
  decide

/-- C2 amended: in multiple, non-passive mode, for every non-disabled
option and array selection, `select` toggles membership of the option's
value (appending it if absent, removing every occurrence if present) and
leaves the overlay open; applying `select` to the same option twice
preserves the *membership* of the selection (the same values are selected
afterwards), and restores the exact original sequence when the value was
not initially selected — when it was, the value is re-appended at the
end, so the order may differ from the original. -/
theorem select_multiple_toggle (p : Props α) (s : State α) (o : SelectOption α)
    (vs : List α) (hm : p.multiple = true) (hp : p.passive = false)
    (hd : o.disabled = false) (hv : s.localValue = ModelValue.list vs) :
    ((select p s o).localValue =
      ModelValue.list
        (if o.value ∈ vs then vs.filter (fun v => v ≠ o.value)
         else vs ++ [o.value])) ∧
    ((select p s o).showDropdown = s.showDropdown) ∧
    ((select p (select p s o) o).localValue =
      ModelValue.list
        (if o.value ∈ vs then vs.filter (fun v => v ≠ o.value) ++ [o.value]
         else vs)) ∧
    (∀ x, x ∈ (if o.value ∈ vs then vs.filter (fun v => v ≠ o.value) ++ [o.value]
               else vs) ↔ x ∈ vs) ∧
    (o.value ∉ vs →
      (select p (select p s o) o).localValue = ModelValue.list vs) := by
  obtain ⟨h1v, h1s⟩ := select_multiple_list_localValue p s o vs hm hp hd hv
  have h2 : (select p (select p s o) o).localValue =
      ModelValue.list
        (if o.value ∈ vs then vs.filter (fun v => v ≠ o.value) ++ [o.value]
         else vs) := by
    by_cases hmem : o.value ∈ vs
    · have h1v' : (select p s o).localValue =
          ModelValue.list (vs.filter (fun v => v ≠ o.value)) := by
        simpa [hmem] using h1v
      obtain ⟨h2v, _⟩ :=
        select_multiple_list_localValue p (select p s o) o _ hm hp hd h1v'
      rw [h2v]
      have hni : o.value ∉ vs.filter (fun v => v ≠ o.value) := by simp
      simp [hmem, hni]
    · have h1v' : (select p s o).localValue =
          ModelValue.list (vs ++ [o.value]) := by
        simpa [hmem] using h1v
      obtain ⟨h2v, _⟩ :=
        select_multiple_list_localValue p (select p s o) o _ hm hp hd h1v'
      rw [h2v]
      have hfe : vs.filter (fun v => v ≠ o.value) = vs :=
        List.filter_eq_self.mpr (by
          intro a ha
          simp only [ne_eq, decide_eq_true_eq]
          intro h
          exact hmem (h ▸ ha))
      have hmem2 : o.value ∈ vs ++ [o.value] := by simp
      simp only [if_pos hmem2, List.filter_append, hfe, if_neg hmem]
      simp
  refine ⟨h1v, h1s, h2, ?_, ?_⟩
  · intro x
    by_cases hmem : o.value ∈ vs <;> by_cases hx : x = o.value <;>
      simp [hmem, hx, List.mem_filter, List.mem_append]
  · intro hnm
    simpa [hnm] using h2

/-- Witness for C2 amended: toggling value `3` on and back off the
selection `[1, 2]` restores it exactly. -/
theorem select_multiple_toggle_witness :
    (((select (⟨[], false, true, false, false⟩ : Props ℕ)
        ⟨ModelValue.list [1, 2], true, []⟩ ⟨3, "c", false⟩).localValue =
      ModelValue.list
        (if (3 : ℕ) ∈ [1, 2] then [1, 2].filter (fun v => v ≠ 3)
         else [1, 2] ++ [3])) ∧
    ((select (⟨[], false, true, false, false⟩ : Props ℕ)
        ⟨ModelValue.list [1, 2], true, []⟩ ⟨3, "c", false⟩).showDropdown = true) ∧
    ((select (⟨[], false, true, false, false⟩ : Props ℕ)
        (select (⟨[], false, true, false, false⟩ : Props ℕ)
          ⟨ModelValue.list [1, 2], true, []⟩ ⟨3, "c", false⟩)
        ⟨3, "c", false⟩).localValue =
      ModelValue.list
        (if (3 : ℕ) ∈ [1, 2] then [1, 2].filter (fun v => v ≠ 3) ++ [3]
         else [1, 2])) ∧
    (∀ x, x ∈ (if (3 : ℕ) ∈ [1, 2] then [1, 2].filter (fun v => v ≠ 3) ++ [3]
               else [1, 2]) ↔ x ∈ [1, 2]) ∧
    ((3 : ℕ) ∉ [1, 2] →
      (select (⟨[], false, true, false, false⟩ : Props ℕ)
        (select (⟨[], false, true, false, false⟩ : Props ℕ)
          ⟨ModelValue.list [1, 2], true, []⟩ ⟨3, "c", false⟩)
        ⟨3, "c", false⟩).localValue = ModelValue.list [1, 2])) :=
  select_multiple_toggle (⟨[], false, true, false, false⟩ : Props ℕ)
    ⟨ModelValue.list [1, 2], true, []⟩ ⟨3, "c", false⟩ [1, 2] rfl rfl rfl rfl

/-! ## selectAll (C4) -/

omit [DecidableEq α] in
theorem selectEmits_append (a b : List (Emit α × ModelValue α)) :
    selectEmits (a ++ b) = selectEmits a ++ selectEmits b := by
  simp [selectEmits, List.filterMap_append]

/-- One `select` of a non-disabled option contributes exactly that option
to the trace's `select` events, in every mode. -/
theorem selectEmits_select_eq (p : Props α) (s : State α) (o : SelectOption α)
    (hd : o.disabled = false) :
    selectEmits (select p s o).emitted = selectEmits s.emitted ++ [o] := by
  cases hp : p.passive <;> cases hm : p.multiple <;>
    cases hnc : p.noClose <;> cases hlv : s.localValue <;>
      by_cases heq : s.localValue = ModelValue.single o.value <;>
        simp [select, emitEvent, setLocalValue, closeDropdown, selectEmits, hp, hm,
          hd, hnc, hlv, heq, List.filterMap_append] <;>
        split_ifs <;>
        simp [selectEmits, List.filterMap_append]

/-- Folding `select` over a list of non-disabled options contributes
exactly those options, in order, to the trace's `select` events. -/
theorem selectEmits_foldl_select (p : Props α) (l : List (SelectOption α))
    (s : State α) (h : ∀ o ∈ l, o.disabled = false) :
    selectEmits ((l.foldl (fun acc o => select p acc o) s)).emitted =
      selectEmits s.emitted ++ l := by
  induction l generalizing s with
  | nil => simp
  | cons o t ih =>
    simp only [List.foldl_cons]
    rw [ih (select p s o) (fun o' ho' => h o' (List.mem_cons_of_mem _ ho')),
      selectEmits_select_eq p s o (h o (List.mem_cons_self _ _))]
    simp

/-- C4: `selectAll` applies `select` to exactly the options that are
non-disabled and not currently selected (membership evaluated against the
state at invocation time), in listed order — witnessed by the `select`
events it appends to the trace — and, on the options
`[{v:1}, {v:2, disabled}, {v:3}]` with an empty initial selection in
multiple mode, the resulting selection sequence is `[1, 3]`. -/
theorem selectAll_applies_select_to_unselected :
    (∀ (p : Props α) (s : State α),
        selectEmits (selectAll p s).emitted =
          selectEmits s.emitted ++
            p.options.filter (fun o => !o.disabled && !isCurrentValue p s o.value)) ∧
    ((selectAll
        (⟨[⟨1, "a", false⟩, ⟨2, "b", true⟩, ⟨3, "c", false⟩], false, true,
          false, false⟩ : Props ℕ)
        ⟨ModelValue.list [], true, []⟩).localValue = ModelValue.list [1, 3]) := by
  constructor
  · intro p s
    refine selectEmits_foldl_select p _ s ?_
    intro o ho
    have hmem := (List.mem_filter.mp ho).2
    simp only [Bool.and_eq_true, Bool.not_eq_true'] at hmem
    exact hmem.1
  · decide

/-! ## Multiple mode keeps an array value (C9) -/

/-- A single `select` keeps the bound value an array in multiple mode. -/
theorem select_preserves_list (p : Props α) (s : State α) (o : SelectOption α)
    (hm : p.multiple = true) (vs : List α)
    (hv : s.localValue = ModelValue.list vs) :
    ∃ vs₂, (select p s o).localValue = ModelValue.list vs₂ := by
  cases hd : o.disabled
  · cases hp : p.passive
    · by_cases hmem : o.value ∈ vs <;>
        simp [select, emitEvent, setLocalValue, closeDropdown, hm, hp, hd, hv, hmem]
    · exact ⟨vs, by simp [select, emitEvent, closeDropdown, hm, hp, hd, hv]⟩
  · exact ⟨vs, by simp [select, hd, hv]⟩

/-- Folding `select` over any list of options keeps the bound value an
array in multiple mode. -/
theorem foldl_select_preserves_list (p : Props α) (l : List (SelectOption α))
    (s : State α) (hm : p.multiple = true) (vs : List α)
    (hv : s.localValue = ModelValue.list vs) :
    ∃ vs₂, ((l.foldl (fun acc o => select p acc o) s)).localValue =
      ModelValue.list vs₂ := by
  induction l generalizing s vs with
  | nil => exact ⟨vs, hv⟩
  | cons o t ih =>
    obtain ⟨vs₁, hvs₁⟩ := select_preserves_list p s o hm vs hv
    simpa using ih (select p s o) vs₁ hvs₁

/-- Any selection operation keeps the bound value an array in multiple
mode. -/
theorem applyOp_preserves_list (p : Props α) (s : State α) (op : MultiOp α)
    (hm : p.multiple = true) (vs : List α)
    (hv : s.localValue = ModelValue.list vs) :
    ∃ vs₂, (applyOp p s op).localValue = ModelValue.list vs₂ := by
  cases op with
  | sel o => exact select_preserves_list p s o hm vs hv
  | selAll => exact foldl_select_preserves_list p _ s hm vs hv

/-- C9: constructing the component in multiple mode with a
`null`/`undefined` bound value immediately normalizes it to the empty
array, and every sequence of `select`/`selectAll` operations in multiple
mode starting from an array value leaves the bound value an array. -/
theorem multiple_value_stays_array (p : Props α) (s : State α)
    (ops : List (MultiOp α)) (hm : p.multiple = true) (vs : List α)
    (hv : s.localValue = ModelValue.list vs) :
    (initLocalValue true (ModelValue.null : ModelValue α) = ModelValue.list []) ∧
    ∃ vs₂, (applyOps p s ops).localValue = ModelValue.list vs₂ := by
  refine ⟨by simp [initLocalValue], ?_⟩
  induction ops generalizing s vs with
  | nil => exact ⟨vs, hv⟩
  | cons op t ih =>
    obtain ⟨vs₁, hvs₁⟩ := applyOp_preserves_list p s op hm vs hv
    simpa [applyOps] using ih (applyOp p s op) vs₁ hvs₁

/-- Witness for C9: a concrete two-operation run (a click on option `1`
followed by "select all") starting from the empty array keeps the bound
value an array. -/
theorem multiple_value_stays_array_witness :
    (initLocalValue true (ModelValue.null : ModelValue ℕ) = ModelValue.list []) ∧
    ∃ vs₂, (applyOps
        (⟨[⟨1, "a", false⟩, ⟨2, "b", false⟩], false, true, false, false⟩ : Props ℕ)
        ⟨ModelValue.list [], true, []⟩
        [MultiOp.sel ⟨1, "a", false⟩, MultiOp.selAll]).localValue =
      ModelValue.list vs₂ :=
  multiple_value_stays_array
    (⟨[⟨1, "a", false⟩, ⟨2, "b", false⟩], false, true, false, false⟩ : Props ℕ)
    ⟨ModelValue.list [], true, []⟩
    [MultiOp.sel ⟨1, "a", false⟩, MultiOp.selAll] rfl [] rfl

end CommonSelect
